import Mathlib

/-!
Verification of the Mindscape canvas core: viewport transform (pan,
wheel zoom, pinch zoom, button zoom, fit-to-screen), node layout,
connector anchor selection, node drag commit, and node store updates.

The JavaScript numbers of the source are modelled as exact rationals
(`ℚ`); every definition is a direct translation of the corresponding
source function.
-/

namespace Mindscape

/-- Viewport transform `{x, y, scale}` kept by the Canvas component:
content is rendered with `translate(x, y) scale(scale)` about the
top-left origin. -/
structure Transform where
  x : ℚ
  y : ℚ
  scale : ℚ
  deriving DecidableEq, Repr

/-- A screen- or content-space point. -/
structure Pt where
  x : ℚ
  y : ℚ
  deriving DecidableEq, Repr

/-- Squared Euclidean distance.  The source compares `Math.hypot` /
`Math.sqrt` distances; since the square root is strictly monotone on
nonnegative reals, every comparison (`<`, `= 0`) made by the source is
equivalent to the same comparison on squared distances, which stay in
`ℚ`. -/
def distSq (p q : Pt) : ℚ := (p.x - q.x) ^ 2 + (p.y - q.y) ^ 2

/-- `Math.min(Math.max(0.1, s), 3)`: the scale clamp applied by the
wheel handler and the pinch handler. -/
def clampScale (s : ℚ) : ℚ := min (max (1/10) s) 3

/-- Canvas width constant: `NODE_WIDTH = 384` (tailwind `w-96`). -/
def NODE_WIDTH : ℚ := 384

/-- `handlePointerMove`, single-pointer branch: pan by the pointer
delta, scale untouched. -/
def panUpdate (dx dy : ℚ) (t : Transform) : Transform :=
  { t with x := t.x + dx, y := t.y + dy }

/-- `handleWheel`: `scaleAmount = -deltaY * 0.001`; clamp the target
scale, then solve the translation so the content point under the mouse
stays fixed: `newX = mouseX - (mouseX - prev.x) * (newScale / prev.scale)`. -/
def wheelUpdate (mouseX mouseY deltaY : ℚ) (t : Transform) : Transform :=
  let scaleAmount := -deltaY * (1/1000)
  let newScale := clampScale (t.scale + scaleAmount)
  { x := mouseX - (mouseX - t.x) * (newScale / t.scale)
    y := mouseY - (mouseY - t.y) * (newScale / t.scale)
    scale := newScale }

/-- `handleZoomIn`: `scale := Math.min(prev.scale * 1.2, 3)`. -/
def zoomIn (t : Transform) : Transform :=
  { t with scale := min (t.scale * (12/10)) 3 }

/-- `handleZoomOut`: `scale := Math.max(prev.scale * 0.8, 0.1)`. -/
def zoomOut (t : Transform) : Transform :=
  { t with scale := max (t.scale * (8/10)) (1/10) }

/-- The `setTransform` body of the pinch branch of `handlePointerMove`:
`newScale = clamp(prev.scale * scaleFactor)` and
`newX = newMidpoint.x - (newMidpoint.x - (prev.x + panDx)) * scaleFactor`
(note: the translation is scaled by the raw `scaleFactor`, not by
`newScale / prev.scale`). -/
def pinchApply (midX midY scaleFactor panDx panDy : ℚ) (t : Transform) : Transform :=
  let newScale := clampScale (t.scale * scaleFactor)
  { scale := newScale
    x := midX - (midX - (t.x + panDx)) * scaleFactor
    y := midY - (midY - (t.y + panDy)) * scaleFactor }

/-- Exact rational square root used to model `Math.hypot`: on a
nonnegative rational whose reduced numerator and denominator are
perfect squares (all distances appearing in concrete theorems below)
it equals the real square root, just as floating-point `hypot` is
exact there.  `ratSqrt q = 0` exactly when `q ≤ 0`, so the
zero-distance guard below coincides with the source's `oldDist === 0`. -/
def ratSqrt (q : ℚ) : ℚ := (Nat.sqrt q.num.toNat : ℚ) / (Nat.sqrt q.den : ℚ)

/-- The pinch branch of `handlePointerMove`: old/new inter-pointer
distances (`Math.hypot`), old/new midpoints, the `oldDist === 0` early
return, then the transform update with
`scaleFactor = newDist / oldDist` and the midpoint pan. -/
def pinchMove (oldP0 oldP1 newP0 newP1 : Pt) (t : Transform) : Transform :=
  let oldDist := ratSqrt (distSq oldP0 oldP1)
  let newDist := ratSqrt (distSq newP0 newP1)
  let oldMid : Pt := ⟨(oldP0.x + oldP1.x) / 2, (oldP0.y + oldP1.y) / 2⟩
  let newMid : Pt := ⟨(newP0.x + newP1.x) / 2, (newP0.y + newP1.y) / 2⟩
  if oldDist = 0 then t
  else
    pinchApply newMid.x newMid.y (newDist / oldDist)
      (newMid.x - oldMid.x) (newMid.y - oldMid.y) t

/-- Screen x-coordinate of a content point under a transform
(`translate(x,y) scale(s)`, origin top-left). -/
def toScreenX (t : Transform) (cx : ℚ) : ℚ := cx * t.scale + t.x

/-- Screen y-coordinate of a content point under a transform. -/
def toScreenY (t : Transform) (cy : ℚ) : ℚ := cy * t.scale + t.y

lemma ratSqrt_natCast_sq (n : ℕ) : ratSqrt ((n : ℚ) ^ 2) = n := by
  have h : ((n : ℚ) ^ 2) = ((n ^ 2 : ℕ) : ℚ) := by push_cast; ring
  rw [h]
  unfold ratSqrt
  rw [Rat.num_natCast, Rat.den_natCast, Int.toNat_natCast, Nat.sqrt_eq', Nat.sqrt_one]
  simp

lemma tenth_le_clampScale (s : ℚ) : 1/10 ≤ clampScale s :=
  le_min (le_max_left _ _) (by norm_num)

lemma clampScale_le_three (s : ℚ) : clampScale s ≤ 3 := min_le_right _ _

lemma clampScale_ne_zero (s : ℚ) : clampScale s ≠ 0 := by
  have h := tenth_le_clampScale s
  intro h0
  rw [h0] at h
  norm_num at h

lemma clampScale_of_mem (s : ℚ) (h1 : 1/10 ≤ s) (h2 : s ≤ 3) : clampScale s = s := by
  unfold clampScale
  rw [max_eq_right h1, min_eq_left h2]

/-- **C8** Pan accumulation: `Pan(dx1,dy1)` then `Pan(dx2,dy2)` equals
the single `Pan(dx1+dx2, dy1+dy2)`, and the scale is unchanged in both. -/
theorem pan_accumulation (t : Transform) (dx1 dy1 dx2 dy2 : ℚ) :
    panUpdate dx2 dy2 (panUpdate dx1 dy1 t) = panUpdate (dx1 + dx2) (dy1 + dy2) t ∧
    (panUpdate dx2 dy2 (panUpdate dx1 dy1 t)).scale = t.scale := by
  refine ⟨?_, rfl⟩
  simp only [panUpdate, Transform.mk.injEq]
  exact ⟨by ring, by ring, trivial⟩

/-- **C7** Pinch zero-distance guard: when the two previously tracked
pointer positions coincide (old inter-pointer distance 0), the pinch
move leaves the transform completely unchanged. -/
theorem pinch_zero_distance_guard (oldP0 oldP1 newP0 newP1 : Pt) (t : Transform)
    (h : distSq oldP0 oldP1 = 0) :
    pinchMove oldP0 oldP1 newP0 newP1 t = t := by
  unfold pinchMove
  rw [h]
  simp [ratSqrt]

/-- Witness for C7: two coincident pointers at `(5,5)` leave the
transform `⟨1, 2, 1⟩` unchanged. -/
theorem pinch_zero_distance_guard_witness :
    pinchMove ⟨5, 5⟩ ⟨5, 5⟩ ⟨0, 0⟩ ⟨10, 0⟩ ⟨1, 2, 1⟩ = ⟨1, 2, 1⟩ :=
  pinch_zero_distance_guard ⟨5, 5⟩ ⟨5, 5⟩ ⟨0, 0⟩ ⟨10, 0⟩ ⟨1, 2, 1⟩ (by norm_num [distSq])

/-- **C1 (amended)** Zoom anchoring.  Wheel zoom: for every transform
with nonzero scale and every focal (mouse) point, the content point
under the focal point is preserved exactly, even when the target scale
is clamped.  Pinch zoom: the content point under the new midpoint is
preserved relative to the midpoint-panned translation
(`(fx - x') / s' = (fx - (T.x + panDx)) / T.scale`) provided the
unclamped target scale `T.scale * scaleFactor` lies in `[0.1, 3.0]`;
the original claim fails when the clamp binds (see the
counterexample), because the pinch translation is scaled by the raw
`scaleFactor` rather than `newScale / prev.scale`. -/
theorem zoom_anchoring_amended :
    (∀ (t : Transform) (mouseX mouseY deltaY : ℚ), t.scale ≠ 0 →
      (mouseX - (wheelUpdate mouseX mouseY deltaY t).x) /
          (wheelUpdate mouseX mouseY deltaY t).scale = (mouseX - t.x) / t.scale ∧
      (mouseY - (wheelUpdate mouseX mouseY deltaY t).y) /
          (wheelUpdate mouseX mouseY deltaY t).scale = (mouseY - t.y) / t.scale) ∧
    (∀ (t : Transform) (midX midY f panDx panDy : ℚ), t.scale ≠ 0 →
      1/10 ≤ t.scale * f → t.scale * f ≤ 3 →
      (midX - (pinchApply midX midY f panDx panDy t).x) /
          (pinchApply midX midY f panDx panDy t).scale = (midX - (t.x + panDx)) / t.scale ∧
      (midY - (pinchApply midX midY f panDx panDy t).y) /
          (pinchApply midX midY f panDx panDy t).scale = (midY - (t.y + panDy)) / t.scale) := by
  constructor
  · intro t mouseX mouseY deltaY hs
    simp only [wheelUpdate]
    generalize hc : clampScale (t.scale + -deltaY * (1/1000)) = c
    have hc0 : c ≠ 0 := hc ▸ clampScale_ne_zero _
    constructor <;> · field_simp; ring
  · intro t midX midY f panDx panDy hs h1 h2
    have hf : f ≠ 0 := by
      intro h0
      rw [h0, mul_zero] at h1
      norm_num at h1
    simp only [pinchApply, clampScale_of_mem _ h1 h2]
    constructor <;> · field_simp; ring

/-- Witness for C1: wheel zoom at mouse `(5, 7)` with `deltaY = 100`
on `⟨0, 0, 1⟩`, and an unclamped pinch (`scaleFactor = 2` on scale
`1`) anchored at midpoint `(20, 0)` with pan `(15, 0)`. -/
theorem zoom_anchoring_amended_witness :
    ((5 - (wheelUpdate 5 7 100 ⟨0, 0, 1⟩).x) / (wheelUpdate 5 7 100 ⟨0, 0, 1⟩).scale
        = (5 - (0 : ℚ)) / 1 ∧
      (7 - (wheelUpdate 5 7 100 ⟨0, 0, 1⟩).y) / (wheelUpdate 5 7 100 ⟨0, 0, 1⟩).scale
        = (7 - (0 : ℚ)) / 1) ∧
    ((20 - (pinchApply 20 0 2 15 0 ⟨0, 0, 1⟩).x) / (pinchApply 20 0 2 15 0 ⟨0, 0, 1⟩).scale
        = (20 - ((0 : ℚ) + 15)) / 1 ∧
      (0 - (pinchApply 20 0 2 15 0 ⟨0, 0, 1⟩).y) / (pinchApply 20 0 2 15 0 ⟨0, 0, 1⟩).scale
        = (0 - ((0 : ℚ) + 0)) / 1) :=
  ⟨zoom_anchoring_amended.1 ⟨0, 0, 1⟩ 5 7 100 (by norm_num),
   zoom_anchoring_amended.2 ⟨0, 0, 1⟩ 20 0 2 15 0 (by norm_num) (by norm_num) (by norm_num)⟩

/-- Counterexample to C1 as stated: starting from `T = ⟨0, 0, 3⟩`
(scale `3 ∈ [0.1, 3]`), a pinch whose pointers move from
`(0,0),(10,0)` to `(10,0),(30,0)` has new midpoint `(20, 0)` and
clamped target scale `s' = 3`, but the content point under the
midpoint is not preserved: `(20 - x') / s' = 10/3 ≠ 20/3 = (20 - T.x) / T.scale`. -/
theorem zoom_anchoring_counterexample :
    (1/10 : ℚ) ≤ (⟨0, 0, 3⟩ : Transform).scale ∧ (⟨0, 0, 3⟩ : Transform).scale ≤ 3 ∧
    clampScale ((⟨0, 0, 3⟩ : Transform).scale * 2) =
      (pinchMove ⟨0, 0⟩ ⟨10, 0⟩ ⟨10, 0⟩ ⟨30, 0⟩ ⟨0, 0, 3⟩).scale ∧
    (20 - (pinchMove ⟨0, 0⟩ ⟨10, 0⟩ ⟨10, 0⟩ ⟨30, 0⟩ ⟨0, 0, 3⟩).x) /
        (pinchMove ⟨0, 0⟩ ⟨10, 0⟩ ⟨10, 0⟩ ⟨30, 0⟩ ⟨0, 0, 3⟩).scale
      ≠ (20 - (⟨0, 0, 3⟩ : Transform).x) / (⟨0, 0, 3⟩ : Transform).scale := by
  have d1 : distSq ⟨0, 0⟩ ⟨10, 0⟩ = ((10 : ℕ) : ℚ) ^ 2 := by norm_num [distSq]
  have d2 : distSq ⟨10, 0⟩ ⟨30, 0⟩ = ((20 : ℕ) : ℚ) ^ 2 := by norm_num [distSq]
  have r1 : ratSqrt (distSq ⟨0, 0⟩ ⟨10, 0⟩) = 10 := by
    rw [d1, ratSqrt_natCast_sq]; norm_num
  have r2 : ratSqrt (distSq ⟨10, 0⟩ ⟨30, 0⟩) = 20 := by
    rw [d2, ratSqrt_natCast_sq]; norm_num
  refine ⟨by norm_num, by norm_num, ?_, ?_⟩ <;>
    norm_num [pinchMove, pinchApply, r1, r2, clampScale, min_def, max_def]

/-- Input to `handleResetView`: a node's content position plus the
rendered element's `clientHeight` when the element is present
(`nodeElements.current[node.id]`), `none` otherwise. -/
structure FitNode where
  x : ℚ
  y : ℚ
  elHeight : Option ℚ
  deriving DecidableEq, Repr

/-- `el ? el.clientHeight : 200` — the fallback height. -/
def fitHeight (n : FitNode) : ℚ := n.elHeight.getD 200

/-- `PADDING = 100` in `handleResetView`. -/
def PADDING : ℚ := 100

/-- The `minX`/`minY`/`maxX`/`maxY` accumulations of `handleResetView`.
The source seeds them with `±Infinity` and folds over every node; on a
non-empty list `n :: rest` this is the same as seeding with the first
node's contribution and folding over the rest. -/
def bbMinX (n : FitNode) (rest : List FitNode) : ℚ :=
  rest.foldl (fun b m => min b m.x) n.x

/-- See `bbMinX`. -/
def bbMinY (n : FitNode) (rest : List FitNode) : ℚ :=
  rest.foldl (fun b m => min b m.y) n.y

/-- See `bbMinX`; nodes extend `NODE_WIDTH` to the right of `x`. -/
def bbMaxX (n : FitNode) (rest : List FitNode) : ℚ :=
  rest.foldl (fun b m => max b (m.x + NODE_WIDTH)) (n.x + NODE_WIDTH)

/-- See `bbMinX`; nodes extend `fitHeight` below `y`. -/
def bbMaxY (n : FitNode) (rest : List FitNode) : ℚ :=
  rest.foldl (fun b m => max b (m.y + fitHeight m)) (n.y + fitHeight n)

/-- `scale = Math.min(scaleX, scaleY, 1.5)` with
`scaleX = (viewportWidth - PADDING*2)/bbWidth` and
`scaleY = (viewportHeight - PADDING*2)/bbHeight`. -/
def fitScale (bbWidth bbHeight vw vh : ℚ) : ℚ :=
  min (min ((vw - PADDING * 2) / bbWidth) ((vh - PADDING * 2) / bbHeight)) (3/2)

/-- `handleResetView`: empty collection resets to `{0,0,1}`; a
degenerate (zero-width or zero-height) bounding box centers the first
extent at scale 1; otherwise fit the bounding box with padding,
capped at scale 1.5, and center it. -/
def resetView (nodes : List FitNode) (vw vh : ℚ) : Transform :=
  match nodes with
  | [] => { x := 0, y := 0, scale := 1 }
  | n :: rest =>
    let minX := bbMinX n rest
    let minY := bbMinY n rest
    let bbWidth := bbMaxX n rest - minX
    let bbHeight := bbMaxY n rest - minY
    if bbWidth = 0 ∨ bbHeight = 0 then
      { x := vw / 2 - (minX + NODE_WIDTH / 2) * 1
        y := vh / 2 - (minY + 100) * 1
        scale := 1 }
    else
      let scale := fitScale bbWidth bbHeight vw vh
      { x := (vw - bbWidth * scale) / 2 - minX * scale
        y := (vh - bbHeight * scale) / 2 - minY * scale
        scale := scale }

lemma bbMinX_le (n : FitNode) (rest : List FitNode) : bbMinX n rest ≤ n.x := by
  unfold bbMinX
  generalize n.x = a
  induction rest generalizing a with
  | nil => exact le_refl a
  | cons m l ih =>
    simp only [List.foldl_cons]
    exact le_trans (ih (min a m.x)) (min_le_left _ _)

lemma bbMinY_le (n : FitNode) (rest : List FitNode) : bbMinY n rest ≤ n.y := by
  unfold bbMinY
  generalize n.y = a
  induction rest generalizing a with
  | nil => exact le_refl a
  | cons m l ih =>
    simp only [List.foldl_cons]
    exact le_trans (ih (min a m.y)) (min_le_left _ _)

lemma le_bbMaxX (n : FitNode) (rest : List FitNode) : n.x + NODE_WIDTH ≤ bbMaxX n rest := by
  unfold bbMaxX
  generalize n.x + NODE_WIDTH = a
  induction rest generalizing a with
  | nil => exact le_refl a
  | cons m l ih =>
    simp only [List.foldl_cons]
    exact le_trans (le_max_left _ _) (ih (max a (m.x + NODE_WIDTH)))

lemma le_bbMaxY (n : FitNode) (rest : List FitNode) : n.y + fitHeight n ≤ bbMaxY n rest := by
  unfold bbMaxY
  generalize n.y + fitHeight n = a
  induction rest generalizing a with
  | nil => exact le_refl a
  | cons m l ih =>
    simp only [List.foldl_cons]
    exact le_trans (le_max_left _ _) (ih (max a (m.y + fitHeight m)))

lemma fit_bounds (minX maxX minY maxY vw vh s : ℚ)
    (hW0 : 0 < maxX - minX) (hH0 : 0 < maxY - minY)
    (hvw : 2 * PADDING ≤ vw) (hvh : 2 * PADDING ≤ vh)
    (hs : s = fitScale (maxX - minX) (maxY - minY) vw vh) :
    (PADDING ≤ minX * s + ((vw - (maxX - minX) * s) / 2 - minX * s) ∧
      minX * s + ((vw - (maxX - minX) * s) / 2 - minX * s) ≤ vw - PADDING) ∧
    (PADDING ≤ maxX * s + ((vw - (maxX - minX) * s) / 2 - minX * s) ∧
      maxX * s + ((vw - (maxX - minX) * s) / 2 - minX * s) ≤ vw - PADDING) ∧
    (PADDING ≤ minY * s + ((vh - (maxY - minY) * s) / 2 - minY * s) ∧
      minY * s + ((vh - (maxY - minY) * s) / 2 - minY * s) ≤ vh - PADDING) ∧
    (PADDING ≤ maxY * s + ((vh - (maxY - minY) * s) / 2 - minY * s) ∧
      maxY * s + ((vh - (maxY - minY) * s) / 2 - minY * s) ≤ vh - PADDING) := by
  have hs0 : 0 ≤ s := by
    rw [hs]
    exact le_min (le_min (div_nonneg (by linarith) hW0.le) (div_nonneg (by linarith) hH0.le))
      (by norm_num)
  have hsX : s ≤ (vw - PADDING * 2) / (maxX - minX) := by
    rw [hs]
    exact le_trans (min_le_left _ _) (min_le_left _ _)
  have hsY : s ≤ (vh - PADDING * 2) / (maxY - minY) := by
    rw [hs]
    exact le_trans (min_le_left _ _) (min_le_right _ _)
  have hWs : (maxX - minX) * s ≤ vw - PADDING * 2 := by
    have h := mul_le_mul_of_nonneg_left hsX hW0.le
    have he : (maxX - minX) * ((vw - PADDING * 2) / (maxX - minX)) = vw - PADDING * 2 := by
      field_simp
    linarith
  have hHs : (maxY - minY) * s ≤ vh - PADDING * 2 := by
    have h := mul_le_mul_of_nonneg_left hsY hH0.le
    have he : (maxY - minY) * ((vh - PADDING * 2) / (maxY - minY)) = vh - PADDING * 2 := by
      field_simp
    linarith
  have hWs0 : 0 ≤ (maxX - minX) * s := mul_nonneg hW0.le hs0
  have hHs0 : 0 ≤ (maxY - minY) * s := mul_nonneg hH0.le hs0
  have hx : maxX * s - minX * s = (maxX - minX) * s := by ring
  have hy : maxY * s - minY * s = (maxY - minY) * s := by ring
  refine ⟨⟨by linarith, by linarith⟩, ⟨by nlinarith, by nlinarith⟩,
    ⟨by linarith, by linarith⟩, ⟨by nlinarith, by nlinarith⟩⟩

/-- **C4 (amended)** Fit-to-screen round trip: for every non-empty node
collection whose bounding box has non-zero height (the width is always
at least `NODE_WIDTH = 384`), nonnegative rendered heights, and a
viewport at least `2 * PADDING` wide and tall, the computed transform
maps both bounding-box corners into the viewport rectangle inset by
`PADDING = 100` on each side.  The original claim fails for viewports
narrower (or shorter) than `2 * PADDING`, where the inset rectangle is
degenerate and the computed scale can be negative. -/
theorem fit_round_trip_amended (n : FitNode) (rest : List FitNode) (vw vh : ℚ)
    (t : Transform) (ht : t = resetView (n :: rest) vw vh)
    (hh : ∀ m ∈ n :: rest, 0 ≤ fitHeight m)
    (hbbH : bbMaxY n rest - bbMinY n rest ≠ 0)
    (hvw : 2 * PADDING ≤ vw) (hvh : 2 * PADDING ≤ vh) :
    (PADDING ≤ toScreenX t (bbMinX n rest) ∧ toScreenX t (bbMinX n rest) ≤ vw - PADDING) ∧
    (PADDING ≤ toScreenX t (bbMaxX n rest) ∧ toScreenX t (bbMaxX n rest) ≤ vw - PADDING) ∧
    (PADDING ≤ toScreenY t (bbMinY n rest) ∧ toScreenY t (bbMinY n rest) ≤ vh - PADDING) ∧
    (PADDING ≤ toScreenY t (bbMaxY n rest) ∧ toScreenY t (bbMaxY n rest) ≤ vh - PADDING) := by
  have hW0 : (0 : ℚ) < bbMaxX n rest - bbMinX n rest := by
    have h1 := bbMinX_le n rest
    have h2 := le_bbMaxX n rest
    have hNW : (0 : ℚ) < NODE_WIDTH := by norm_num [NODE_WIDTH]
    linarith
  have hH0 : (0 : ℚ) < bbMaxY n rest - bbMinY n rest := by
    have h1 := bbMinY_le n rest
    have h2 := le_bbMaxY n rest
    have h3 : 0 ≤ fitHeight n := hh n (List.mem_cons_self n rest)
    have h4 : (0 : ℚ) ≤ bbMaxY n rest - bbMinY n rest := by linarith
    exact h4.lt_of_ne (Ne.symm hbbH)
  have ht' : t = { x := (vw - (bbMaxX n rest - bbMinX n rest) *
                          fitScale (bbMaxX n rest - bbMinX n rest)
                            (bbMaxY n rest - bbMinY n rest) vw vh) / 2 -
                        bbMinX n rest *
                          fitScale (bbMaxX n rest - bbMinX n rest)
                            (bbMaxY n rest - bbMinY n rest) vw vh
                   y := (vh - (bbMaxY n rest - bbMinY n rest) *
                          fitScale (bbMaxX n rest - bbMinX n rest)
                            (bbMaxY n rest - bbMinY n rest) vw vh) / 2 -
                        bbMinY n rest *
                          fitScale (bbMaxX n rest - bbMinX n rest)
                            (bbMaxY n rest - bbMinY n rest) vw vh
                   scale := fitScale (bbMaxX n rest - bbMinX n rest)
                              (bbMaxY n rest - bbMinY n rest) vw vh } := by
    rw [ht]
    show resetView (n :: rest) vw vh = _
    simp only [resetView]
    rw [if_neg]
    push_neg
    exact ⟨hW0.ne', hH0.ne'⟩
  subst ht'
  simp only [toScreenX, toScreenY]
  exact fit_bounds (bbMinX n rest) (bbMaxX n rest) (bbMinY n rest) (bbMaxY n rest) vw vh
    (fitScale (bbMaxX n rest - bbMinX n rest) (bbMaxY n rest - bbMinY n rest) vw vh)
    hW0 hH0 hvw hvh rfl

/-- Witness for C4: a single node at `(0,0)` with rendered height 100
in a `1000 × 800` viewport. -/
theorem fit_round_trip_amended_witness :
    (PADDING ≤ toScreenX (resetView [⟨0, 0, some 100⟩] 1000 800) (bbMinX ⟨0, 0, some 100⟩ []) ∧
      toScreenX (resetView [⟨0, 0, some 100⟩] 1000 800) (bbMinX ⟨0, 0, some 100⟩ []) ≤
        1000 - PADDING) ∧
    (PADDING ≤ toScreenX (resetView [⟨0, 0, some 100⟩] 1000 800) (bbMaxX ⟨0, 0, some 100⟩ []) ∧
      toScreenX (resetView [⟨0, 0, some 100⟩] 1000 800) (bbMaxX ⟨0, 0, some 100⟩ []) ≤
        1000 - PADDING) ∧
    (PADDING ≤ toScreenY (resetView [⟨0, 0, some 100⟩] 1000 800) (bbMinY ⟨0, 0, some 100⟩ []) ∧
      toScreenY (resetView [⟨0, 0, some 100⟩] 1000 800) (bbMinY ⟨0, 0, some 100⟩ []) ≤
        800 - PADDING) ∧
    (PADDING ≤ toScreenY (resetView [⟨0, 0, some 100⟩] 1000 800) (bbMaxY ⟨0, 0, some 100⟩ []) ∧
      toScreenY (resetView [⟨0, 0, some 100⟩] 1000 800) (bbMaxY ⟨0, 0, some 100⟩ []) ≤
        800 - PADDING) :=
  fit_round_trip_amended ⟨0, 0, some 100⟩ [] 1000 800 _ rfl
    (by
      intro m hm
      simp only [List.mem_singleton] at hm
      subst hm
      norm_num [fitHeight])
    (by norm_num [bbMaxY, bbMinY, fitHeight])
    (by norm_num [PADDING]) (by norm_num [PADDING])

/-- Counterexample to C4 as stated: in a viewport of width
`150 < 2 * PADDING`, a single node at `(0,0)` with height 100 meets
every hypothesis of the claim (non-empty, non-zero bounding box width
and height), yet fit-to-screen maps `(minX, minY)` to screen x `100`,
which is outside the inset rectangle since `vw - PADDING = 50`. -/
theorem fit_round_trip_counterexample :
    bbMaxX ⟨0, 0, some 100⟩ [] - bbMinX ⟨0, 0, some 100⟩ [] ≠ 0 ∧
    bbMaxY ⟨0, 0, some 100⟩ [] - bbMinY ⟨0, 0, some 100⟩ [] ≠ 0 ∧
    ¬ (toScreenX (resetView [⟨0, 0, some 100⟩] 150 400) (bbMinX ⟨0, 0, some 100⟩ []) ≤
        150 - PADDING) := by
  refine ⟨by norm_num [bbMaxX, bbMinX, NODE_WIDTH],
    by norm_num [bbMaxY, bbMinY, fitHeight], ?_⟩
  norm_num [resetView, fitScale, toScreenX, bbMinX, bbMinY, bbMaxX, bbMaxY, fitHeight,
    NODE_WIDTH, PADDING, min_def, max_def]

/-- One transform-mutating operation of the canvas, as classified by
the claim: pan, pinch, wheel zoom, the two zoom buttons, and
fit-to-screen (`handleResetView`). -/
inductive CanvasOp where
  | pan (dx dy : ℚ)
  | pinch (oldP0 oldP1 newP0 newP1 : Pt)
  | wheel (mouseX mouseY deltaY : ℚ)
  | buttonZoomIn
  | buttonZoomOut
  | fitToScreen (nodes : List FitNode) (vw vh : ℚ)

/-- Dispatch one operation to the corresponding source handler.
`handleResetView` replaces the transform outright, ignoring the
previous one. -/
def applyOp (t : Transform) : CanvasOp → Transform
  | .pan dx dy => panUpdate dx dy t
  | .pinch a b c d => pinchMove a b c d t
  | .wheel mx my dy => wheelUpdate mx my dy t
  | .buttonZoomIn => zoomIn t
  | .buttonZoomOut => zoomOut t
  | .fitToScreen nodes vw vh => resetView nodes vw vh

/-- Apply a sequence of operations in order. -/
def applyOps (t : Transform) (ops : List CanvasOp) : Transform :=
  ops.foldl applyOp t

/-- The initial transform of the Canvas component:
`{ x: window.innerWidth / 4, y: window.innerHeight / 8, scale: 0.8 }`. -/
def initialTransform (innerWidth innerHeight : ℚ) : Transform :=
  { x := innerWidth / 4, y := innerHeight / 8, scale := 8/10 }

/-- Marks the fit-to-screen operation. -/
def CanvasOp.isFit : CanvasOp → Bool
  | .fitToScreen _ _ _ => true
  | _ => false

lemma applyOp_scale_mem (t : Transform) (op : CanvasOp) (hop : op.isFit = false)
    (h1 : 1/10 ≤ t.scale) (h2 : t.scale ≤ 3) :
    1/10 ≤ (applyOp t op).scale ∧ (applyOp t op).scale ≤ 3 := by
  cases op with
  | pan dx dy => exact ⟨h1, h2⟩
  | pinch a b c d =>
    show 1/10 ≤ (pinchMove a b c d t).scale ∧ (pinchMove a b c d t).scale ≤ 3
    rcases eq_or_ne (ratSqrt (distSq a b)) 0 with hz | hz
    · have he : pinchMove a b c d t = t := by
        unfold pinchMove
        rw [if_pos hz]
      rw [he]
      exact ⟨h1, h2⟩
    · have he : pinchMove a b c d t =
          pinchApply ((c.x + d.x) / 2) ((c.y + d.y) / 2)
            (ratSqrt (distSq c d) / ratSqrt (distSq a b))
            ((c.x + d.x) / 2 - (a.x + b.x) / 2) ((c.y + d.y) / 2 - (a.y + b.y) / 2) t := by
        unfold pinchMove
        rw [if_neg hz]
      rw [he]
      exact ⟨tenth_le_clampScale _, clampScale_le_three _⟩
  | wheel mx my dy =>
    exact ⟨tenth_le_clampScale _, clampScale_le_three _⟩
  | buttonZoomIn =>
    refine ⟨le_min (by linarith) (by norm_num), min_le_right _ _⟩
  | buttonZoomOut =>
    refine ⟨le_max_right _ _, max_le (by linarith) (by norm_num)⟩
  | fitToScreen nodes vw vh =>
    simp [CanvasOp.isFit] at hop

lemma applyOps_scale_mem (ops : List CanvasOp) (hops : ∀ op ∈ ops, op.isFit = false) :
    ∀ t : Transform, 1/10 ≤ t.scale → t.scale ≤ 3 →
      1/10 ≤ (applyOps t ops).scale ∧ (applyOps t ops).scale ≤ 3 := by
  induction ops with
  | nil => exact fun t h1 h2 => ⟨h1, h2⟩
  | cons op ops ih =>
    intro t h1 h2
    have h := applyOp_scale_mem t op (hops op (List.mem_cons_self op ops)) h1 h2
    simp only [applyOps, List.foldl_cons]
    exact ih (fun o ho => hops o (List.mem_cons_of_mem op ho)) (applyOp t op) h.1 h.2

/-- **C2 (amended)** Scale clamp: for every sequence of pan, pinch,
wheel-zoom and button-zoom operations starting from the initial
transform (scale `0.8`), the resulting scale stays in `[0.1, 3.0]`.
The original claim also included fit-to-screen, but `handleResetView`
applies no lower clamp: a bounding box large relative to the viewport
produces a scale below `0.1` (see the counterexample). -/
theorem scale_clamp_amended (innerWidth innerHeight : ℚ) (ops : List CanvasOp)
    (hops : ∀ op ∈ ops, op.isFit = false) :
    1/10 ≤ (applyOps (initialTransform innerWidth innerHeight) ops).scale ∧
      (applyOps (initialTransform innerWidth innerHeight) ops).scale ≤ 3 :=
  applyOps_scale_mem ops hops _ (by norm_num [initialTransform])
    (by norm_num [initialTransform])

/-- Witness for C2: a pan, a button zoom-in and a wheel zoom starting
from the initial transform in a `1024 × 768` window. -/
theorem scale_clamp_amended_witness :
    1/10 ≤ (applyOps (initialTransform 1024 768)
        [CanvasOp.pan 5 7, CanvasOp.buttonZoomIn, CanvasOp.wheel 0 0 50]).scale ∧
      (applyOps (initialTransform 1024 768)
        [CanvasOp.pan 5 7, CanvasOp.buttonZoomIn, CanvasOp.wheel 0 0 50]).scale ≤ 3 :=
  scale_clamp_amended 1024 768 [CanvasOp.pan 5 7, CanvasOp.buttonZoomIn, CanvasOp.wheel 0 0 50]
    (by
      intro op hop
      simp only [List.mem_cons, List.not_mem_nil, or_false] at hop
      rcases hop with rfl | rfl | rfl <;> rfl)

/-- Counterexample to C2 as stated: from the initial transform in a
`1000 × 800` window, the single fit-to-screen operation over two nodes
at `x = 0` and `x = 99616` (bounding box `100000` wide) yields scale
`(1000 - 200) / 100000 = 1/125 < 0.1`. -/
theorem scale_clamp_counterexample :
    ¬ (1/10 ≤ (applyOps (initialTransform 1000 800)
          [CanvasOp.fitToScreen [⟨0, 0, some 100⟩, ⟨99616, 0, some 100⟩] 1000 800]).scale ∧
        (applyOps (initialTransform 1000 800)
          [CanvasOp.fitToScreen [⟨0, 0, some 100⟩, ⟨99616, 0, some 100⟩] 1000 800]).scale ≤ 3) := by
  intro h
  have h1 := h.1
  norm_num [applyOps, applyOp, resetView, fitScale, bbMinX, bbMinY, bbMaxX, bbMaxY,
    fitHeight, NODE_WIDTH, PADDING, min_def, max_def] at h1

/-- `NodeType` from `types.ts`. -/
inductive NodeType where
  | PROMPT
  | AI_RESPONSE
  | GENERATED_IMAGE
  | GENERATED_VIDEO
  | LOADING
  | ERROR
  | SYSTEM_MESSAGE
  deriving DecidableEq, Repr

/-- `NodeAction` from `types.ts`. -/
inductive NodeAction where
  | GENERATE_IMAGE
  | GENERATE_VIDEO
  | DEEPEN_THOUGHT
  deriving DecidableEq, Repr

/-- The optional `file` payload of a node. -/
structure FileData where
  base64 : String
  mimeType : String
  name : String
  deriving DecidableEq, Repr

/-- `NodeData` from `types.ts`. -/
structure NodeData where
  id : String
  type : NodeType
  content : String
  file : Option FileData
  x : ℚ
  y : ℚ
  parentId : Option String
  triggeredByAction : Option NodeAction
  deriving DecidableEq, Repr

/-- `useCanvasStore.updateNode`, generalized over the merge applied to
the found node: `findIndex` locates the first node whose `id` matches;
if found, that entry is replaced by the merged record and every other
entry is kept; if no node matches, the state is returned unchanged. -/
def updateNodeWith (id : String) (patch : NodeData → NodeData) :
    List NodeData → List NodeData
  | [] => []
  | n :: ns =>
    if n.id = id then patch n :: ns
    else n :: updateNodeWith id patch ns

/-- `CanvasManager.handleNodeDrag`: commit a dragged node's position
via `updateNode({ id, x, y })`, which merges `id`, `x` and `y` into
the existing node. -/
def handleNodeDrag (id : String) (x y : ℚ) (nodes : List NodeData) : List NodeData :=
  updateNodeWith id (fun n => { n with id := id, x := x, y := y }) nodes

/-- The drag-session state recorded by `Node.tsx` on pointer-down:
screen-space pointer start and the node's content-space start. -/
structure DragState where
  startX : ℚ
  startY : ℚ
  nodeStartX : ℚ
  nodeStartY : ℚ
  deriving DecidableEq, Repr

/-- `handlePointerDown` of `Node.tsx`: record the pointer's client
coordinates and the node's current position. -/
def beginDrag (clientX clientY nodeX nodeY : ℚ) : DragState :=
  ⟨clientX, clientY, nodeX, nodeY⟩

/-- `handlePointerUp` of `Node.tsx`: the committed final position is
the recorded node start plus the screen-space delta divided by the
current canvas scale. -/
def dragFinalPosition (ds : DragState) (clientX clientY scale : ℚ) : ℚ × ℚ :=
  (ds.nodeStartX + (clientX - ds.startX) / scale,
   ds.nodeStartY + (clientY - ds.startY) / scale)

/-- **C3** Drag scale-invariance: a drag that starts with the pointer
at `(downX, downY)` on a node at `(n.x, n.y)` and releases at
`(upX, upY)` with the viewport scale `s` fixed commits, through
`handleNodeDrag`, exactly the displacement
`((upX - downX) / s, (upY - downY) / s)` from the node's recorded
start position, and changes nothing else in the collection. -/
theorem drag_scale_invariance (n : NodeData) (rest : List NodeData)
    (downX downY upX upY s : ℚ) :
    handleNodeDrag n.id
        (dragFinalPosition (beginDrag downX downY n.x n.y) upX upY s).1
        (dragFinalPosition (beginDrag downX downY n.x n.y) upX upY s).2
        (n :: rest) =
      { n with x := n.x + (upX - downX) / s, y := n.y + (upY - downY) / s } :: rest := by
  show updateNodeWith _ _ _ = _
  unfold updateNodeWith
  rw [if_pos rfl]
  rfl

/-- **C10** Unknown-id update is a no-op: when no node's id matches,
both the generic `updateNode` merge and the drag commit return the
collection unchanged. -/
theorem unknown_id_update_noop (nodes : List NodeData) (id : String)
    (patch : NodeData → NodeData) (x y : ℚ)
    (h : ∀ n ∈ nodes, n.id ≠ id) :
    updateNodeWith id patch nodes = nodes ∧ handleNodeDrag id x y nodes = nodes := by
  have hgen : ∀ (p : NodeData → NodeData), updateNodeWith id p nodes = nodes := by
    intro p
    induction nodes with
    | nil => rfl
    | cons n ns ih =>
      unfold updateNodeWith
      rw [if_neg (h n (List.mem_cons_self n ns))]
      rw [ih (fun m hm => h m (List.mem_cons_of_mem n hm))]
  exact ⟨hgen patch, hgen _⟩

/-- Witness for C10: updating id `"z"` in a two-node collection whose
ids are `"a"` and `"b"` changes nothing. -/
theorem unknown_id_update_noop_witness :
    updateNodeWith "z" (fun n => { n with content := "changed" })
        [⟨"a", NodeType.PROMPT, "hello", none, 0, 0, none, none⟩,
         ⟨"b", NodeType.AI_RESPONSE, "world", none, 1, 2, some "a", none⟩] =
      [⟨"a", NodeType.PROMPT, "hello", none, 0, 0, none, none⟩,
       ⟨"b", NodeType.AI_RESPONSE, "world", none, 1, 2, some "a", none⟩] ∧
    handleNodeDrag "z" 7 9
        [⟨"a", NodeType.PROMPT, "hello", none, 0, 0, none, none⟩,
         ⟨"b", NodeType.AI_RESPONSE, "world", none, 1, 2, some "a", none⟩] =
      [⟨"a", NodeType.PROMPT, "hello", none, 0, 0, none, none⟩,
       ⟨"b", NodeType.AI_RESPONSE, "world", none, 1, 2, some "a", none⟩] :=
  unknown_id_update_noop _ "z" _ 7 9
    (by
      intro n hn
      simp only [List.mem_cons, List.not_mem_nil, or_false] at hn
      rcases hn with rfl | rfl <;> decide)

lemma handleNodeDrag_cons_eq (m : NodeData) (ms : List NodeData) (id : String) (x y : ℚ)
    (hm : m.id = id) :
    handleNodeDrag id x y (m :: ms) = { m with x := x, y := y } :: ms := by
  show updateNodeWith id _ (m :: ms) = _
  unfold updateNodeWith
  rw [if_pos hm, ← hm]

lemma handleNodeDrag_cons_ne (m : NodeData) (ms : List NodeData) (id : String) (x y : ℚ)
    (hm : m.id ≠ id) :
    handleNodeDrag id x y (m :: ms) = m :: handleNodeDrag id x y ms := by
  show updateNodeWith id _ (m :: ms) = _
  unfold updateNodeWith
  rw [if_neg hm]
  rfl

/-- **C9** Drag-commit frame effect: when a node with the given id
exists, `handleNodeDrag` rewrites exactly the first such node's `x`
and `y`, leaves its `id`, `type`, `content`, `file`, `parentId` and
`triggeredByAction` unchanged, and leaves every other node, the
length, and the order of the collection unchanged. -/
theorem drag_commit_frame_effect (nodes : List NodeData) (id : String) (x y : ℚ)
    (h : ∃ n ∈ nodes, n.id = id) :
    ∃ pre n post,
      nodes = pre ++ n :: post ∧
      (∀ m ∈ pre, m.id ≠ id) ∧
      n.id = id ∧
      handleNodeDrag id x y nodes = pre ++ { n with x := x, y := y } :: post ∧
      (handleNodeDrag id x y nodes).length = nodes.length := by
  induction nodes with
  | nil => simp at h
  | cons m ms ih =>
    rcases eq_or_ne m.id id with hm | hm
    · refine ⟨[], m, ms, rfl, by simp, hm, ?_, ?_⟩
      · rw [handleNodeDrag_cons_eq m ms id x y hm]
        rfl
      · rw [handleNodeDrag_cons_eq m ms id x y hm]
        rfl
    · have h' : ∃ n ∈ ms, n.id = id := by
        rcases h with ⟨n, hn, hnid⟩
        rcases List.mem_cons.mp hn with rfl | hn'
        · exact absurd hnid hm
        · exact ⟨n, hn', hnid⟩
      rcases ih h' with ⟨pre, n, post, hsplit, hpre, hnid, heq, hlen⟩
      refine ⟨m :: pre, n, post, by rw [hsplit]; rfl, ?_, hnid, ?_, ?_⟩
      · intro p hp
        rcases List.mem_cons.mp hp with rfl | hp'
        · exact hm
        · exact hpre p hp'
      · rw [handleNodeDrag_cons_ne m ms id x y hm, heq]
        rfl
      · rw [handleNodeDrag_cons_ne m ms id x y hm]
        simp [hlen]

/-- Witness for C9: dragging node `"b"` of a two-node collection to
`(7, 9)`. -/
theorem drag_commit_frame_effect_witness :
    ∃ pre n post,
      ([⟨"a", NodeType.PROMPT, "hello", none, 0, 0, none, none⟩,
        ⟨"b", NodeType.AI_RESPONSE, "world", none, 1, 2, some "a", none⟩] :
          List NodeData) = pre ++ n :: post ∧
      (∀ m ∈ pre, m.id ≠ "b") ∧
      n.id = "b" ∧
      handleNodeDrag "b" 7 9
          [⟨"a", NodeType.PROMPT, "hello", none, 0, 0, none, none⟩,
           ⟨"b", NodeType.AI_RESPONSE, "world", none, 1, 2, some "a", none⟩] =
        pre ++ { n with x := 7, y := 9 } :: post ∧
      (handleNodeDrag "b" 7 9
          [⟨"a", NodeType.PROMPT, "hello", none, 0, 0, none, none⟩,
           ⟨"b", NodeType.AI_RESPONSE, "world", none, 1, 2, some "a", none⟩]).length =
        ([⟨"a", NodeType.PROMPT, "hello", none, 0, 0, none, none⟩,
          ⟨"b", NodeType.AI_RESPONSE, "world", none, 1, 2, some "a", none⟩] :
            List NodeData).length :=
  drag_commit_frame_effect _ "b" 7 9
    ⟨⟨"b", NodeType.AI_RESPONSE, "world", none, 1, 2, some "a", none⟩, by simp, rfl⟩

/-- `CanvasManager.getNewNodePosition`: count the existing children of
the parent, compute the centered group width
`count * NODE_WIDTH + max(0, count - 1) * 40`, start the row at
`parent.x + NODE_WIDTH/2 - groupWidth/2`, and place the new child
`count` slots (of `NODE_WIDTH + 40`) into the row, 300 below the
parent. -/
def getNewNodePosition (parentNode : NodeData) (nodes : List NodeData) : ℚ × ℚ :=
  let existingChildren := nodes.filter (fun n => n.parentId == some parentNode.id)
  let yOffset : ℚ := 300
  let childrenCount := existingChildren.length
  let groupWidth : ℚ := (childrenCount : ℚ) * NODE_WIDTH +
    ((max 0 ((childrenCount : ℤ) - 1) : ℤ) : ℚ) * 40
  let startX := parentNode.x + (NODE_WIDTH / 2) - (groupWidth / 2)
  (startX + (childrenCount : ℚ) * (NODE_WIDTH + 40), parentNode.y + yOffset)

/-- The `App.tsx` variant of `getNewNodePosition`:
`xOffset = (existingChildren.length - 1) * 220`. -/
def getNewNodePositionApp (parentNode : NodeData) (nodes : List NodeData) : ℚ × ℚ :=
  let existingChildren := nodes.filter (fun n => n.parentId == some parentNode.id)
  (parentNode.x + ((existingChildren.length : ℚ) - 1) * 220, parentNode.y + 300)

lemma getNewNodePosition_x (p : NodeData) (nodes : List NodeData) (k : ℕ)
    (hk : (nodes.filter (fun n => n.parentId == some p.id)).length = k) :
    (getNewNodePosition p nodes).1 =
      p.x + (NODE_WIDTH / 2) -
        ((k : ℚ) * NODE_WIDTH + ((max 0 ((k : ℤ) - 1) : ℤ) : ℚ) * 40) / 2 +
        (k : ℚ) * (NODE_WIDTH + 40) := by
  simp only [getNewNodePosition, hk]

lemma getNewNodePositionApp_x (p : NodeData) (nodes : List NodeData) (k : ℕ)
    (hk : (nodes.filter (fun n => n.parentId == some p.id)).length = k) :
    (getNewNodePositionApp p nodes).1 = p.x + ((k : ℚ) - 1) * 220 := by
  simp only [getNewNodePositionApp, hk]

/-- A parent node at `(0, 0)` with no parent of its own. -/
def parentP : NodeData := ⟨"p", NodeType.PROMPT, "root", none, 0, 0, none, none⟩

/-- The first child of `parentP`, placed by the layout engine while no
sibling exists. -/
def childC1 : NodeData :=
  ⟨"c1", NodeType.AI_RESPONSE, "first child", none,
    (getNewNodePosition parentP [parentP]).1, (getNewNodePosition parentP [parentP]).2,
    some "p", none⟩

/-- **C5** evaluated at the failing input (the claim is right, the code
is wrong): with the parent at `(0,0)`, the layout engine places the
first child at `x = 192` and — with that child present — the second at
`x = 424`; nodes are `NODE_WIDTH = 384` wide, so the horizontal
extents `[192, 576]` and `[424, 808]` overlap, contradicting
non-overlap already at `N = 2`.  The `App.tsx` variant overlaps too
(children at `x = -220` and `x = 0` with width 384). -/
theorem sibling_spread_failing_input :
    (getNewNodePosition parentP [parentP]).1 = 192 ∧
    (getNewNodePosition parentP [parentP, childC1]).1 = 424 ∧
    (getNewNodePosition parentP [parentP]).1 <
      (getNewNodePosition parentP [parentP, childC1]).1 ∧
    (getNewNodePosition parentP [parentP, childC1]).1 <
      (getNewNodePosition parentP [parentP]).1 + NODE_WIDTH ∧
    (getNewNodePositionApp parentP [parentP]).1 = -220 ∧
    (getNewNodePositionApp parentP [parentP, childC1]).1 = 0 ∧
    (getNewNodePositionApp parentP [parentP]).1 <
      (getNewNodePositionApp parentP [parentP, childC1]).1 ∧
    (getNewNodePositionApp parentP [parentP, childC1]).1 <
      (getNewNodePositionApp parentP [parentP]).1 + NODE_WIDTH := by
  have hk0 : (([parentP] : List NodeData).filter
      (fun n => n.parentId == some parentP.id)).length = 0 := by decide
  have hk1 : (([parentP, childC1] : List NodeData).filter
      (fun n => n.parentId == some parentP.id)).length = 1 := by decide
  rw [getNewNodePosition_x parentP [parentP] 0 hk0,
    getNewNodePosition_x parentP [parentP, childC1] 1 hk1,
    getNewNodePositionApp_x parentP [parentP] 0 hk0,
    getNewNodePositionApp_x parentP [parentP, childC1] 1 hk1]
  norm_num [parentP, NODE_WIDTH, max_def]

/-- The four anchor candidates of a rendered node: top-center,
bottom-center, left-middle and right-middle, from its position, fixed
width `NODE_WIDTH` and rendered height. -/
def nodeAnchors (x y height : ℚ) : List Pt :=
  [⟨x + NODE_WIDTH / 2, y⟩,
   ⟨x + NODE_WIDTH / 2, y + height⟩,
   ⟨x, y + height / 2⟩,
   ⟨x + NODE_WIDTH, y + height / 2⟩]

/-- One step of the nested loops of `calculateSynapsePoints`: replace
the best pair exactly when the candidate is strictly closer
(`distance < minDistance`, compared here on squared distances since
the square root is strictly monotone). -/
def pickCloser (best p : Pt × Pt) : Pt × Pt :=
  if distSq p.1 p.2 < distSq best.1 best.2 then p else best

/-- `calculateSynapsePoints` for two rendered nodes: fold the strict
minimum over all 16 `(fromAnchor, toAnchor)` pairs in loop order.  The
source seeds `bestPair = (fromAnchors[0], toAnchors[0])` with
`minDistance = Infinity` and examines that pair first, which is the
same as folding with that pair as the initial best. -/
def calculateSynapsePoints (fromX fromY fromHeight toX toY toHeight : ℚ) : Pt × Pt :=
  let fromAnchors := nodeAnchors fromX fromY fromHeight
  let toAnchors := nodeAnchors toX toY toHeight
  let pairs := fromAnchors.flatMap (fun a => toAnchors.map (fun b => (a, b)))
  pairs.foldl pickCloser (⟨fromX + NODE_WIDTH / 2, fromY⟩, ⟨toX + NODE_WIDTH / 2, toY⟩)

lemma distSq_foldl_pickCloser_le_init (l : List (Pt × Pt)) :
    ∀ b : Pt × Pt,
      distSq (l.foldl pickCloser b).1 (l.foldl pickCloser b).2 ≤ distSq b.1 b.2 := by
  induction l with
  | nil => intro b; exact le_refl _
  | cons p ps ih =>
    intro b
    simp only [List.foldl_cons]
    refine le_trans (ih (pickCloser b p)) ?_
    rcases lt_or_ge (distSq p.1 p.2) (distSq b.1 b.2) with hlt | hge
    · unfold pickCloser
      rw [if_pos hlt]
      exact le_of_lt hlt
    · unfold pickCloser
      rw [if_neg (not_lt.mpr hge)]

lemma distSq_foldl_pickCloser_le_mem (l : List (Pt × Pt)) :
    ∀ (b q : Pt × Pt), q ∈ l →
      distSq (l.foldl pickCloser b).1 (l.foldl pickCloser b).2 ≤ distSq q.1 q.2 := by
  induction l with
  | nil => intro b q hq; simp at hq
  | cons p ps ih =>
    intro b q hq
    simp only [List.foldl_cons]
    rcases List.mem_cons.mp hq with rfl | hq'
    · refine le_trans (distSq_foldl_pickCloser_le_init ps (pickCloser b q)) ?_
      rcases lt_or_ge (distSq q.1 q.2) (distSq b.1 b.2) with hlt | hge
      · unfold pickCloser
        rw [if_pos hlt]
      · unfold pickCloser
        rw [if_neg (not_lt.mpr hge)]
        exact hge
    · exact ih (pickCloser b p) q hq'

/-- **C6** Connector anchor minimality: for every parent-child pair
with rendered heights, the selected pair has squared distance least
among all 16 anchor-pair candidates (equivalently, least Euclidean
distance); and in the concrete scenario — parent at `(0,0)` of size
`384 × 100`, child at `(0,300)` of size `384 × 100` — the selected
anchors are parent-bottom `(192, 100)` and child-top `(192, 300)`. -/
theorem connector_anchor_minimality :
    (∀ (fromX fromY fromHeight toX toY toHeight : ℚ) (q : Pt × Pt),
      q ∈ (nodeAnchors fromX fromY fromHeight).flatMap
            (fun a => (nodeAnchors toX toY toHeight).map (fun b => (a, b))) →
      distSq (calculateSynapsePoints fromX fromY fromHeight toX toY toHeight).1
          (calculateSynapsePoints fromX fromY fromHeight toX toY toHeight).2 ≤
        distSq q.1 q.2) ∧
    calculateSynapsePoints 0 0 100 0 300 100 = (⟨192, 100⟩, ⟨192, 300⟩) := by
  constructor
  · intro fromX fromY fromHeight toX toY toHeight q hq
    exact distSq_foldl_pickCloser_le_mem _ _ q hq
  · norm_num [calculateSynapsePoints, nodeAnchors, pickCloser, distSq, NODE_WIDTH]

/-- Witness for C6: the selected pair for the scenario nodes is at
least as close as the candidate (parent-top, child-top) pair
`((192, 0), (192, 300))`, which is among the 16 candidates. -/
theorem connector_anchor_minimality_witness :
    distSq (calculateSynapsePoints 0 0 100 0 300 100).1
        (calculateSynapsePoints 0 0 100 0 300 100).2 ≤
      distSq (⟨192, 0⟩ : Pt) (⟨192, 300⟩ : Pt) :=
  connector_anchor_minimality.1 0 0 100 0 300 100 (⟨192, 0⟩, ⟨192, 300⟩)
    (by norm_num [nodeAnchors, NODE_WIDTH])

end Mindscape
